import Mathlib

/-!
Shallow embedding of the Go load balancer (src/loadbalancer/loadbalancer.go):
server records with mutable health flags, round-robin selection
(GetNextServer), the health-check cycle (HealthCheck), the dispatch path
(ServeHTTP) and the status endpoint (handleStatus), together with proofs of
the specified properties.
-/

deriving instance DecidableEq for Except

/-- One backend server record: an endpoint URL and a health flag.  The Go
struct also carries a mutex guarding the flag; reads and writes are modelled
as atomic state accesses, so the mutex itself has no counterpart here. -/
structure Server where
  url : String
  healthy : Bool
deriving Repr, DecidableEq

instance : Inhabited Server := ⟨{ url := "", healthy := false }⟩

/-- Server.IsHealthy returns the current value of the health flag. -/
def Server.IsHealthy (s : Server) : Bool := s.healthy

/-- Server.SetHealth overwrites the health flag. -/
def Server.SetHealth (s : Server) (b : Bool) : Server := { s with healthy := b }

/-- The load balancer: the fixed list of server records plus the shared
uint64 rotation counter. -/
structure LoadBalancer where
  servers : List Server
  current : Nat
deriving Repr, DecidableEq

/-- Modulus of the Go uint64 rotation counter. -/
def U64 : Nat := 2 ^ 64

/-- Indices into the server list of the servers whose IsHealthy() is true,
in registry order: the list of pointers that GetNextServer builds by
scanning lb.servers and appending the healthy ones. -/
def healthyIndices : List Server → List Nat
  | [] => []
  | s :: rest =>
    if s.IsHealthy then 0 :: (healthyIndices rest).map (· + 1)
    else (healthyIndices rest).map (· + 1)

/-- GetNextServer: build the filtered view of healthy servers in registry
order; if it is empty fail with the no-healthy-servers error; otherwise
atomically increment the counter (uint64, so modulo 2^64) and return the
healthy entry at index counter mod length.  The selected server (a pointer
into lb.servers in Go) is represented by its index into lb.servers. -/
def GetNextServer (lb : LoadBalancer) : Except String (Nat × LoadBalancer) :=
  let healthyServers := healthyIndices lb.servers
  if healthyServers.length = 0 then
    Except.error "no healthy servers available"
  else
    let next := (lb.current + 1) % U64
    Except.ok (healthyServers.getD (next % healthyServers.length) 0,
      { lb with current := next })

/-- Outcome of one liveness probe (client.Get of url + /health): either a
transport-level failure or a completed response with a status code. -/
inductive ProbeResult where
  | transportError
  | status (code : Nat)
deriving Repr, DecidableEq

/-- The health classification the monitor commits for a probe outcome:
false on transport failure, and for a completed response true exactly when
the status code is 200 (http.StatusOK). -/
def newHealth : ProbeResult → Bool
  | ProbeResult.transportError => false
  | ProbeResult.status code => code == 200

/-- The log messages the health-check loop can emit for one server:
the transition messages (health check failed / back up / down) and the
steady-state heartbeat (still up). -/
inductive LogEvent where
  | checkFailed
  | backUp
  | down
  | stillUp
deriving Repr, DecidableEq

/-- The log emitted for one server in one health-check cycle, mirroring the
branches of HealthCheck: on a transport error the failure is logged only if
the server was healthy (otherwise the loop continues with no message at
all); on a completed response, a transition message when the classification
changed, and the still-up heartbeat otherwise. -/
def healthCheckLog (wasHealthy : Bool) (probe : ProbeResult) : Option LogEvent :=
  match probe with
  | ProbeResult.transportError =>
    if wasHealthy then some LogEvent.checkFailed else none
  | ProbeResult.status code =>
    let healthy := code == 200
    if !wasHealthy && healthy then some LogEvent.backUp
    else if wasHealthy && !healthy then some LogEvent.down
    else some LogEvent.stillUp

/-- One pass of the monitor over the servers from position i on: each
server's flag is set, via SetHealth, to the classification of its probe. -/
def probeServers (probe : Nat → ProbeResult) : Nat → List Server → List Server
  | _, [] => []
  | i, s :: rest => s.SetHealth (newHealth (probe i)) :: probeServers probe (i + 1) rest

/-- One health-check cycle over the whole registry: every record is probed
and its flag committed regardless of whether it changed. -/
def healthCheckCycle (lb : LoadBalancer) (probe : Nat → ProbeResult) : LoadBalancer :=
  { lb with servers := probeServers probe 0 lb.servers }

/-- The per-server log messages of one health-check cycle, in registry
order. -/
def cycleLogs (probe : Nat → ProbeResult) : Nat → List Server → List (Option LogEvent)
  | _, [] => []
  | i, s :: rest => healthCheckLog s.IsHealthy (probe i) :: cycleLogs probe (i + 1) rest

/-- The body of the /lb-status JSON response. -/
structure StatusResponse where
  loadBalancer : String
  servers : List Server
  algorithm : String
  timestamp : Nat
deriving Repr, DecidableEq

/-- handleStatus builds the status snapshot: activity flag, the full server
list (endpoint and health flag per record), the algorithm name and a
timestamp. -/
def handleStatus (lb : LoadBalancer) (now : Nat) : StatusResponse :=
  { loadBalancer := "active"
    servers := lb.servers
    algorithm := "round-robin"
    timestamp := now }

/-- Outcome of relaying a request to a chosen backend: a transport-level
proxy failure, or the backend's response with its status code. -/
inductive RelayOutcome where
  | transportFailure
  | response (code : Nat)
deriving Repr, DecidableEq

/-- What the handler writes back to the client: the status JSON, an
http.Error with body and code, or the backend response proxied through
from the server at the given index. -/
inductive HttpAction where
  | statusJson (resp : StatusResponse)
  | httpError (body : String) (code : Nat)
  | proxied (serverIdx : Nat) (code : Nat)
deriving Repr, DecidableEq

/-- Overwrite the health flag of the server at index i, as SetHealth called
through the selected pointer does. -/
def setServerHealth (lb : LoadBalancer) (i : Nat) (b : Bool) : LoadBalancer :=
  { lb with servers := lb.servers.set i ((lb.servers.getD i default).SetHealth b) }

/-- ServeHTTP: requests for /lb-status go to handleStatus; otherwise select
a backend, answering 503 with an explanatory body when selection fails;
relay the request to the selected backend, and on a transport-level proxy
error mark that server unhealthy and answer 503; on success pass the
backend response through.  The relay outcome is supplied as a function of
the selected server index, and now is the timestamp source. -/
def ServeHTTP (lb : LoadBalancer) (path : String) (relay : Nat → RelayOutcome)
    (now : Nat) : HttpAction × LoadBalancer :=
  if path = "/lb-status" then
    (HttpAction.statusJson (handleStatus lb now), lb)
  else
    match GetNextServer lb with
    | Except.error e =>
      (HttpAction.httpError ("Service Unavailable: " ++ e) 503, lb)
    | Except.ok (i, lb') =>
      match relay i with
      | RelayOutcome.transportFailure =>
        (HttpAction.httpError "Service Temporarily Unavailable" 503,
          setServerHealth lb' i false)
      | RelayOutcome.response code =>
        (HttpAction.proxied i code, lb')

/-- N consecutive GetNextServer calls with no interleaved state changes:
returns the list of selected indices in order together with the final
state (a failed call selects nothing and leaves the state unchanged). -/
def selectN (lb : LoadBalancer) : Nat → List Nat × LoadBalancer
  | 0 => ([], lb)
  | n + 1 =>
    match GetNextServer lb with
    | Except.error _ => ([], lb)
    | Except.ok (i, lb') =>
      let r := selectN lb' n
      (i :: r.1, r.2)

/-- Reading the server list at the healthy indices gives exactly the
filtered view of healthy servers, in registry order. -/
theorem healthyIndices_map_getD (ss : List Server) :
    (healthyIndices ss).map (fun i => ss.getD i default) =
      ss.filter (fun s => s.IsHealthy) := by
  induction ss with
  | nil => rfl
  | cons s rest ih =>
    have hmap : ((healthyIndices rest).map (· + 1)).map
        (fun i => (s :: rest).getD i default) =
        (healthyIndices rest).map (fun i => rest.getD i default) := by
      rw [List.map_map]
      exact List.map_congr_left (fun a _ => rfl)
    by_cases h : s.IsHealthy
    · simp only [healthyIndices, if_pos h, List.map_cons, hmap, ih,
        List.filter_cons_of_pos h]
      rfl
    · rw [Bool.not_eq_true] at h
      simp only [healthyIndices, h, Bool.false_eq_true, if_false, hmap, ih]
      simp [List.filter_cons, h]

/-- Every healthy index points into the server list, at a server whose
health flag is true. -/
theorem mem_healthyIndices {ss : List Server} {i : Nat}
    (hm : i ∈ healthyIndices ss) :
    i < ss.length ∧ (ss.getD i default).IsHealthy = true := by
  induction ss generalizing i with
  | nil => simp [healthyIndices] at hm
  | cons s rest ih =>
    by_cases h : s.IsHealthy
    · simp only [healthyIndices, if_pos h, List.mem_cons, List.mem_map] at hm
      rcases hm with h0 | ⟨j, hj, rfl⟩
      · subst h0
        exact ⟨by simp, by simpa using h⟩
      · rcases ih hj with ⟨hlen, hh⟩
        exact ⟨by simpa using hlen, by simpa using hh⟩
    · rw [Bool.not_eq_true] at h
      simp only [healthyIndices, h, Bool.false_eq_true, if_false,
        List.mem_map] at hm
      rcases hm with ⟨j, hj, rfl⟩
      rcases ih hj with ⟨hlen, hh⟩
      exact ⟨by simpa using hlen, by simpa using hh⟩

/-- There are as many healthy indices as healthy servers. -/
theorem length_healthyIndices (ss : List Server) :
    (healthyIndices ss).length = (ss.filter (fun s => s.IsHealthy)).length := by
  rw [← healthyIndices_map_getD, List.length_map]

/-- When every server is healthy the healthy view is the whole registry:
the indices are 0, 1, ..., length - 1 in order. -/
theorem healthyIndices_of_all_healthy {ss : List Server}
    (h : ∀ s ∈ ss, s.IsHealthy = true) :
    healthyIndices ss = List.range ss.length := by
  induction ss with
  | nil => rfl
  | cons s rest ih =>
    have hs := h s (by simp)
    have hr := ih (fun x hx => h x (by simp [hx]))
    simp only [healthyIndices, if_pos hs, hr, List.length_cons,
      List.range_succ_eq_map]

/-- When no server is healthy the healthy view is empty. -/
theorem healthyIndices_of_all_unhealthy {ss : List Server}
    (h : ∀ s ∈ ss, s.IsHealthy = false) :
    healthyIndices ss = [] := by
  induction ss with
  | nil => rfl
  | cons s rest ih =>
    have hs := h s (by simp)
    simp [healthyIndices, hs, ih (fun x hx => h x (by simp [hx]))]

/-- Unfolding of a successful selection: with at least one healthy server,
GetNextServer increments the counter modulo 2^64 and picks the healthy
index at the counter modulo the number of healthy servers. -/
theorem GetNextServer_ok {lb : LoadBalancer}
    (h : healthyIndices lb.servers ≠ []) :
    GetNextServer lb = Except.ok
      ((healthyIndices lb.servers).getD
        (((lb.current + 1) % U64) % (healthyIndices lb.servers).length) 0,
      { lb with current := (lb.current + 1) % U64 }) := by
  have hl : (healthyIndices lb.servers).length ≠ 0 := by
    simpa [List.length_eq_zero] using h
  simp [GetNextServer, hl]

/-- Unfolding of a failed selection: with no healthy server, GetNextServer
fails with the no-healthy-servers error. -/
theorem GetNextServer_error {lb : LoadBalancer}
    (h : healthyIndices lb.servers = []) :
    GetNextServer lb = Except.error "no healthy servers available" := by
  simp [GetNextServer, h]

/-- Inversion of a successful selection: the returned index is one of the
healthy indices and the returned state is the input with the counter
incremented modulo 2^64. -/
theorem GetNextServer_ok_inv {lb : LoadBalancer} {i : Nat} {lb' : LoadBalancer}
    (h : GetNextServer lb = Except.ok (i, lb')) :
    i ∈ healthyIndices lb.servers ∧
      lb' = { lb with current := (lb.current + 1) % U64 } := by
  by_cases hl : (healthyIndices lb.servers).length = 0
  · simp [GetNextServer, hl] at h
  · have hpos : 0 < (healthyIndices lb.servers).length := Nat.pos_of_ne_zero hl
    have hidx : ((lb.current + 1) % U64) % (healthyIndices lb.servers).length <
        (healthyIndices lb.servers).length := Nat.mod_lt _ hpos
    simp only [GetNextServer, hl, if_false, Except.ok.injEq, Prod.mk.injEq] at h
    rcases h with ⟨h1, h2⟩
    refine ⟨?_, h2.symm⟩
    rw [← h1, List.getD_eq_getElem _ _ hidx]
    exact List.getElem_mem hidx

/-- The server selected through a healthy index is the corresponding entry
of the filtered healthy view. -/
theorem getD_healthyIndices_eq (ss : List Server) {t : Nat}
    (ht : t < (healthyIndices ss).length) :
    ss.getD ((healthyIndices ss).getD t 0) default =
      (ss.filter (fun s => s.IsHealthy)).getD t default := by
  have ht' : t < ((healthyIndices ss).map (fun i => ss.getD i default)).length := by
    simpa using ht
  have h2 : (ss.filter (fun s => s.IsHealthy)).getD t default =
      ss.getD ((healthyIndices ss).getD t 0) default := by
    rw [← healthyIndices_map_getD]
    rw [List.getD_eq_getElem _ _ ht', List.getElem_map, List.getD_eq_getElem _ _ ht]
  exact h2.symm

/-- Probing does not change the number of servers. -/
theorem probeServers_length (probe : Nat → ProbeResult) (n : Nat)
    (ss : List Server) : (probeServers probe n ss).length = ss.length := by
  induction ss generalizing n with
  | nil => rfl
  | cons s rest ih => simp [probeServers, ih]

/-- The record at position i after a probing pass started at position n is
the old record with its flag set to the classification of probe (n + i). -/
theorem probeServers_getD (probe : Nat → ProbeResult) (n : Nat)
    (ss : List Server) (i : Nat) (hi : i < ss.length) :
    (probeServers probe n ss).getD i default =
      (ss.getD i default).SetHealth (newHealth (probe (n + i))) := by
  induction ss generalizing n i with
  | nil => simp at hi
  | cons s rest ih =>
    cases i with
    | zero => simp [probeServers]
    | succ j =>
      have hj : j < rest.length := by simpa using hi
      have hn : n + 1 + j = n + (j + 1) := by omega
      simp only [probeServers, List.getD_cons_succ, ih (n + 1) j hj, hn]

/-- The log entry at position i of a cycle's log list, for a pass started
at position n. -/
theorem cycleLogs_getD (probe : Nat → ProbeResult) (n : Nat)
    (ss : List Server) (i : Nat) (hi : i < ss.length) :
    (cycleLogs probe n ss).getD i none =
      healthCheckLog ((ss.getD i default).IsHealthy) (probe (n + i)) := by
  induction ss generalizing n i with
  | nil => simp at hi
  | cons s rest ih =>
    cases i with
    | zero => simp [cycleLogs]
    | succ j =>
      have hj : j < rest.length := by simpa using hi
      have hn : n + 1 + j = n + (j + 1) := by omega
      simp only [cycleLogs, List.getD_cons_succ, ih (n + 1) j hj, hn]

/-- Marking one server does not change the number of servers. -/
theorem setServerHealth_length (lb : LoadBalancer) (i : Nat) (b : Bool) :
    (setServerHealth lb i b).servers.length = lb.servers.length := by
  simp [setServerHealth]

/-- Marking one server does not change any endpoint URL. -/
theorem setServerHealth_url (lb : LoadBalancer) (i : Nat) (b : Bool) (j : Nat) :
    ((setServerHealth lb i b).servers.getD j default).url =
      (lb.servers.getD j default).url := by
  simp only [setServerHealth, List.getD_eq_getElem?_getD, List.getElem?_set]
  by_cases hij : i = j
  · subst hij
    by_cases hi : i < lb.servers.length
    · simp [hi, Server.SetHealth, List.getD_eq_getElem?_getD,
        List.getElem?_eq_getElem hi, List.getD_eq_getElem _ _ hi]
    · simp [hi, List.getElem?_eq_none (by omega : lb.servers.length ≤ i)]
  · simp [hij]

/-- Marking server i sets its flag and nothing else: position i afterwards
holds the old record with the new flag. -/
theorem setServerHealth_getD_self (lb : LoadBalancer) (i : Nat) (b : Bool)
    (hi : i < lb.servers.length) :
    (setServerHealth lb i b).servers.getD i default =
      (lb.servers.getD i default).SetHealth b := by
  simp [setServerHealth, List.getD_eq_getElem?_getD, List.getElem?_set, hi]

/-- Positions other than the marked one are untouched. -/
theorem setServerHealth_getD_other (lb : LoadBalancer) (i : Nat) (b : Bool)
    (j : Nat) (hij : i ≠ j) :
    (setServerHealth lb i b).servers.getD j default =
      lb.servers.getD j default := by
  simp [setServerHealth, List.getD_eq_getElem?_getD, List.getElem?_set, hij]

/-- NewLoadBalancer: the three fixed backends, all healthy, counter 0. -/
def NewLoadBalancer : LoadBalancer :=
  { servers :=
      [{ url := "http://host.docker.internal:8081", healthy := true },
       { url := "http://host.docker.internal:8082", healthy := true },
       { url := "http://host.docker.internal:8083", healthy := true }],
    current := 0 }

/-- A registry state with a mix of healthy and unhealthy servers. -/
def lbMixed : LoadBalancer :=
  { servers :=
      [{ url := "http://host.docker.internal:8081", healthy := true },
       { url := "http://host.docker.internal:8082", healthy := false },
       { url := "http://host.docker.internal:8083", healthy := true }],
    current := 0 }

/-- A registry state with every server unhealthy. -/
def lbAllDown : LoadBalancer :=
  { servers :=
      [{ url := "http://host.docker.internal:8081", healthy := false },
       { url := "http://host.docker.internal:8082", healthy := false }],
    current := 4 }

/-- A relay that always succeeds with status 200. -/
def relayOk : Nat → RelayOutcome := fun _ => RelayOutcome.response 200

/-- A relay that always fails at the transport level. -/
def relayFail : Nat → RelayOutcome := fun _ => RelayOutcome.transportFailure

/-- Claim C1: with at least one healthy record and no counter wrap,
GetNextServer builds the healthy view in registry order, increments the
shared counter by one before indexing, leaves the server list unchanged,
and returns the healthy record at position (c + 1) mod m of the healthy
sublist, where c is the prior counter value and m the healthy count. -/
theorem getNextServer_selects_next_healthy (lb : LoadBalancer)
    (hne : lb.servers.filter (fun s => s.IsHealthy) ≠ [])
    (hwrap : lb.current + 1 < U64) :
    GetNextServer lb = Except.ok
      ((healthyIndices lb.servers).getD
        ((lb.current + 1) % (healthyIndices lb.servers).length) 0,
        { lb with current := lb.current + 1 }) ∧
    lb.servers.getD
        ((healthyIndices lb.servers).getD
          ((lb.current + 1) % (healthyIndices lb.servers).length) 0) default =
      (lb.servers.filter (fun s => s.IsHealthy)).getD
        ((lb.current + 1) %
          (lb.servers.filter (fun s => s.IsHealthy)).length) default := by
  have hlen := length_healthyIndices lb.servers
  have hposf : 0 < (lb.servers.filter (fun s => s.IsHealthy)).length :=
    List.length_pos.mpr hne
  have hposh : 0 < (healthyIndices lb.servers).length := by
    rw [hlen]; exact hposf
  have hne' : healthyIndices lb.servers ≠ [] := List.length_pos.mp hposh
  have hok := GetNextServer_ok hne'
  rw [Nat.mod_eq_of_lt hwrap] at hok
  refine ⟨hok, ?_⟩
  rw [← hlen]
  exact getD_healthyIndices_eq lb.servers (Nat.mod_lt _ hposh)

/-- Concrete run of claim C1 on a mixed registry. -/
theorem getNextServer_selects_next_healthy_witness :
    GetNextServer lbMixed = Except.ok
      ((healthyIndices lbMixed.servers).getD
        ((lbMixed.current + 1) % (healthyIndices lbMixed.servers).length) 0,
        { lbMixed with current := lbMixed.current + 1 }) ∧
    lbMixed.servers.getD
        ((healthyIndices lbMixed.servers).getD
          ((lbMixed.current + 1) % (healthyIndices lbMixed.servers).length) 0)
        default =
      (lbMixed.servers.filter (fun s => s.IsHealthy)).getD
        ((lbMixed.current + 1) %
          (lbMixed.servers.filter (fun s => s.IsHealthy)).length) default :=
  getNextServer_selects_next_healthy lbMixed (by decide) (by decide)

/-- Claim C3: a record whose health flag is false when GetNextServer builds
its filtered view is never the record returned: the returned index carries
a true flag, and every index holding a false flag differs from it. -/
theorem unhealthy_never_selected (lb : LoadBalancer) (i : Nat)
    (lb' : LoadBalancer) (h : GetNextServer lb = Except.ok (i, lb')) :
    (lb.servers.getD i default).IsHealthy = true ∧
      ∀ j, (lb.servers.getD j default).IsHealthy = false → j ≠ i := by
  rcases GetNextServer_ok_inv h with ⟨hmem, _⟩
  rcases mem_healthyIndices hmem with ⟨_, hh⟩
  refine ⟨hh, fun j hj hji => ?_⟩
  rw [hji, hh] at hj
  exact absurd hj (by simp)

/-- Concrete run of claim C3: the selected index 2 is healthy and the
unhealthy index 1 is not selected. -/
theorem unhealthy_never_selected_witness :
    (lbMixed.servers.getD 2 default).IsHealthy = true ∧ (1 : Nat) ≠ 2 := by
  have h := unhealthy_never_selected lbMixed 2
    { lbMixed with current := 1 } (by decide)
  exact ⟨h.1, h.2 1 (by decide)⟩

/-- Claim C4: when every record is unhealthy, GetNextServer fails with the
no-healthy-servers error, and ServeHTTP on any non-status path answers 503
with an explanatory body, forwards nothing, and returns the state
unchanged, so the same happens on every call until a flag changes. -/
theorem all_unhealthy_service_unavailable (lb : LoadBalancer) (path : String)
    (relay : Nat → RelayOutcome) (now : Nat)
    (hall : ∀ s ∈ lb.servers, s.IsHealthy = false)
    (hp : path ≠ "/lb-status") :
    GetNextServer lb = Except.error "no healthy servers available" ∧
      ServeHTTP lb path relay now =
        (HttpAction.httpError
          ("Service Unavailable: " ++ "no healthy servers available") 503,
          lb) := by
  have he := GetNextServer_error (healthyIndices_of_all_unhealthy hall)
  refine ⟨he, ?_⟩
  simp [ServeHTTP, hp, he]

/-- Concrete run of claim C4 on the all-unhealthy registry. -/
theorem all_unhealthy_service_unavailable_witness :
    GetNextServer lbAllDown = Except.error "no healthy servers available" ∧
      ServeHTTP lbAllDown "/api/users" relayOk 9 =
        (HttpAction.httpError
          ("Service Unavailable: " ++ "no healthy servers available") 503,
          lbAllDown) :=
  all_unhealthy_service_unavailable lbAllDown "/api/users" relayOk 9
    (by decide) (by decide)

/-- Claim C9: a request for the status path is answered by the status
snapshot (activity flag, the per-record endpoint and health pairs of the
current registry, the algorithm identifier and a timestamp) and the whole
state - flags, endpoints, registry length and counter - is returned
unchanged. -/
theorem status_path_reports_and_preserves (lb : LoadBalancer) (path : String)
    (relay : Nat → RelayOutcome) (now : Nat) (hp : path = "/lb-status") :
    ServeHTTP lb path relay now =
      (HttpAction.statusJson
        { loadBalancer := "active", servers := lb.servers,
          algorithm := "round-robin", timestamp := now }, lb) := by
  simp [ServeHTTP, hp, handleStatus]

/-- Concrete run of claim C9 on a mixed registry. -/
theorem status_path_reports_and_preserves_witness :
    ServeHTTP lbMixed "/lb-status" relayOk 7 =
      (HttpAction.statusJson
        { loadBalancer := "active", servers := lbMixed.servers,
          algorithm := "round-robin", timestamp := 7 }, lbMixed) :=
  status_path_reports_and_preserves lbMixed "/lb-status" relayOk 7 rfl

/-- Claim C10: a selection that fails because no record is healthy leaves
the rotation counter unchanged, and every successful selection advances
the counter by exactly one (modulo the uint64 width). -/
theorem counter_frozen_on_failed_selection (lb : LoadBalancer) (path : String)
    (relay : Nat → RelayOutcome) (now : Nat) (i : Nat) (lb' : LoadBalancer) :
    (healthyIndices lb.servers = [] →
      (ServeHTTP lb path relay now).2.current = lb.current) ∧
      (GetNextServer lb = Except.ok (i, lb') →
        lb'.current = (lb.current + 1) % U64) := by
  constructor
  · intro h0
    by_cases hp : path = "/lb-status"
    · simp [ServeHTTP, hp]
    · simp [ServeHTTP, hp, GetNextServer_error h0]
  · intro hok
    rcases GetNextServer_ok_inv hok with ⟨_, rfl⟩
    rfl

/-- Concrete run of claim C10: a failed selection freezes the counter, a
successful one advances it by one. -/
theorem counter_frozen_on_failed_selection_witness :
    (ServeHTTP lbAllDown "/api/users" relayOk 0).2.current = lbAllDown.current ∧
      ({ lbMixed with current := 1 } : LoadBalancer).current =
        (lbMixed.current + 1) % U64 :=
  ⟨(counter_frozen_on_failed_selection lbAllDown "/api/users" relayOk 0 0
      lbAllDown).1 (by decide),
   (counter_frozen_on_failed_selection lbMixed "/api/users" relayOk 0 2
      { lbMixed with current := 1 }).2 (by decide)⟩

/-- A concrete probe: transport failure for server 0, status 200 for the
rest. -/
def prW : Nat → ProbeResult :=
  fun i => if i = 0 then ProbeResult.transportError else ProbeResult.status 200

/-- Claim C5: in a health-check cycle each probed record's committed flag
is the probe classification - false on a transport-level failure, true on
a completed response with status 200, false on any other status code - and
the flag is written via SetHealth on every cycle regardless of whether it
changed. -/
theorem healthCheck_commits_classification (lb : LoadBalancer)
    (probe : Nat → ProbeResult) (i : Nat) (code : Nat)
    (hi : i < lb.servers.length) (hc : code ≠ 200) :
    (healthCheckCycle lb probe).servers.getD i default =
      (lb.servers.getD i default).SetHealth (newHealth (probe i)) ∧
      newHealth ProbeResult.transportError = false ∧
      newHealth (ProbeResult.status 200) = true ∧
      newHealth (ProbeResult.status code) = false := by
  refine ⟨?_, rfl, rfl, ?_⟩
  · have h := probeServers_getD probe 0 lb.servers i hi
    simpa [healthCheckCycle] using h
  · simp [newHealth, hc]

/-- Concrete run of claim C5 on a mixed registry. -/
theorem healthCheck_commits_classification_witness :
    (healthCheckCycle lbMixed prW).servers.getD 1 default =
      (lbMixed.servers.getD 1 default).SetHealth (newHealth (prW 1)) ∧
      newHealth ProbeResult.transportError = false ∧
      newHealth (ProbeResult.status 200) = true ∧
      newHealth (ProbeResult.status 503) = false :=
  healthCheck_commits_classification lbMixed prW 1 503 (by decide) (by decide)

/-- Whether a logged event reports a health transition rather than the
steady-state heartbeat. -/
def isTransition : Option LogEvent → Bool
  | some LogEvent.checkFailed => true
  | some LogEvent.backUp => true
  | some LogEvent.down => true
  | some LogEvent.stillUp => false
  | none => false

/-- Claim C7 counterexample: for a record that was already unhealthy and
whose probe fails at the transport level, the classification repeats
(stays unhealthy) yet the cycle logs nothing at all for that record - in
particular no steady-state heartbeat, contrary to the claim. -/
theorem heartbeat_missing_counterexample :
    newHealth ProbeResult.transportError = false ∧
      (lbAllDown.servers.getD 0 default).IsHealthy = false ∧
      (cycleLogs (fun _ => ProbeResult.transportError) 0
        lbAllDown.servers).getD 0 none = none := by decide

/-- Claim C7 (amended): in every health-check cycle, for every probed
record, a transition event is logged exactly when the record's new
classification differs from its previous one, and a steady-state heartbeat
is logged otherwise - except that a transport failure on an
already-unhealthy record logs nothing at all. -/
theorem transition_logging_exact (lb : LoadBalancer)
    (probe : Nat → ProbeResult) (i : Nat) (hi : i < lb.servers.length) :
    (isTransition ((cycleLogs probe 0 lb.servers).getD i none) = true ↔
      newHealth (probe i) ≠ (lb.servers.getD i default).IsHealthy) ∧
      (newHealth (probe i) = (lb.servers.getD i default).IsHealthy →
        (cycleLogs probe 0 lb.servers).getD i none =
          if probe i = ProbeResult.transportError ∧
              (lb.servers.getD i default).IsHealthy = false then none
          else some LogEvent.stillUp) := by
  have h := cycleLogs_getD probe 0 lb.servers i hi
  rw [Nat.zero_add] at h
  rw [h]
  cases hpr : probe i with
  | transportError =>
    cases hwas : (lb.servers.getD i default).IsHealthy <;>
      simp [healthCheckLog, newHealth, isTransition]
  | status code =>
    by_cases hc : code = 200 <;>
      cases hwas : (lb.servers.getD i default).IsHealthy <;>
        simp [healthCheckLog, newHealth, isTransition, hc]

/-- Concrete run of the amended claim C7: a healthy record probed with 200
repeats its classification and gets the heartbeat log. -/
theorem transition_logging_exact_witness :
    (cycleLogs prW 0 lbMixed.servers).getD 2 none =
      if prW 2 = ProbeResult.transportError ∧
          (lbMixed.servers.getD 2 default).IsHealthy = false then none
      else some LogEvent.stillUp :=
  (transition_logging_exact lbMixed prW 2 (by decide)).2 (by decide)

/-- Claim C6: when the relay of a forwarded request to the selected
backend fails at the transport level, ServeHTTP immediately sets that
backend's flag to false (no health-monitor cycle involved), answers that
client 503, relays to no alternate backend for that request, and any
subsequent successful selection returns a different backend. -/
theorem relay_failure_marks_unhealthy (lb : LoadBalancer) (path : String)
    (relay : Nat → RelayOutcome) (now : Nat) (i : Nat) (lb' : LoadBalancer)
    (hp : path ≠ "/lb-status")
    (hok : GetNextServer lb = Except.ok (i, lb'))
    (hfail : relay i = RelayOutcome.transportFailure) :
    ServeHTTP lb path relay now =
      (HttpAction.httpError "Service Temporarily Unavailable" 503,
        setServerHealth lb' i false) ∧
      ((ServeHTTP lb path relay now).2.servers.getD i default).IsHealthy =
        false ∧
      ∀ j lb'', GetNextServer (ServeHTTP lb path relay now).2 =
        Except.ok (j, lb'') → j ≠ i := by
  have h1 : ServeHTTP lb path relay now =
      (HttpAction.httpError "Service Temporarily Unavailable" 503,
        setServerHealth lb' i false) := by
    simp [ServeHTTP, hp, hok, hfail]
  rcases GetNextServer_ok_inv hok with ⟨hmem, hlb'⟩
  have hilen : i < lb.servers.length := (mem_healthyIndices hmem).1
  have hilen' : i < lb'.servers.length := by rw [hlb']; exact hilen
  have hflag :
      ((setServerHealth lb' i false).servers.getD i default).IsHealthy =
        false := by
    rw [setServerHealth_getD_self lb' i false hilen']
    rfl
  refine ⟨h1, ?_, ?_⟩
  · rw [h1]
    exact hflag
  · intro j lb'' hok2 hji
    subst hji
    rcases GetNextServer_ok_inv hok2 with ⟨hmem2, _⟩
    have hh2 := (mem_healthyIndices hmem2).2
    have hh3 : ((setServerHealth lb' j false).servers.getD j default).IsHealthy
        = true := by
      rw [h1] at hh2
      exact hh2
    rw [hflag] at hh3
    exact absurd hh3 (by decide)

/-- Concrete run of claim C6: backend 2's relay fails, it is marked down,
the client gets 503, and the next selection picks backend 0 instead. -/
theorem relay_failure_marks_unhealthy_witness :
    ServeHTTP lbMixed "/api/users" relayFail 0 =
      (HttpAction.httpError "Service Temporarily Unavailable" 503,
        setServerHealth { lbMixed with current := 1 } 2 false) ∧
      ((ServeHTTP lbMixed "/api/users" relayFail 0).2.servers.getD 2
          default).IsHealthy = false ∧
      (0 : Nat) ≠ 2 := by
  have h := relay_failure_marks_unhealthy lbMixed "/api/users" relayFail 0 2
    { lbMixed with current := 1 } (by decide) (by decide) rfl
  exact ⟨h.1, h.2.1, h.2.2 0
    { servers := (setServerHealth { lbMixed with current := 1 } 2 false).servers,
      current := 2 } (by decide)⟩

/-- Claim C8: across request dispatch (selection, forwarding and status
reporting) and a health-check cycle, the registry length and every
record's endpoint URL are exactly as constructed; a successful selection
leaves the server list entirely unchanged, so only health flags and the
counter ever change. -/
theorem registry_shape_immutable (lb : LoadBalancer) (path : String)
    (relay : Nat → RelayOutcome) (now : Nat) (probe : Nat → ProbeResult)
    (i : Nat) (lb' : LoadBalancer) :
    ((ServeHTTP lb path relay now).2.servers.length = lb.servers.length ∧
      ∀ j, ((ServeHTTP lb path relay now).2.servers.getD j default).url =
        (lb.servers.getD j default).url) ∧
      ((healthCheckCycle lb probe).servers.length = lb.servers.length ∧
        ∀ j, ((healthCheckCycle lb probe).servers.getD j default).url =
          (lb.servers.getD j default).url) ∧
      (GetNextServer lb = Except.ok (i, lb') → lb'.servers = lb.servers) := by
  have hserve : (ServeHTTP lb path relay now).2.servers.length =
      lb.servers.length ∧
      ∀ j, ((ServeHTTP lb path relay now).2.servers.getD j default).url =
        (lb.servers.getD j default).url := by
    by_cases hp : path = "/lb-status"
    · simp [ServeHTTP, hp]
    · cases hG : GetNextServer lb with
      | error e => simp [ServeHTTP, hp, hG]
      | ok p =>
        obtain ⟨i0, lb0⟩ := p
        have hsrv : lb0.servers = lb.servers := by
          rcases GetNextServer_ok_inv hG with ⟨_, rfl⟩
          rfl
        cases hR : relay i0 with
        | transportFailure =>
          have hst : (ServeHTTP lb path relay now).2 =
              setServerHealth lb0 i0 false := by
            simp [ServeHTTP, hp, hG, hR]
          rw [hst]
          constructor
          · rw [setServerHealth_length, hsrv]
          · intro j
            rw [setServerHealth_url, hsrv]
        | response c =>
          have hst : (ServeHTTP lb path relay now).2 = lb0 := by
            simp [ServeHTTP, hp, hG, hR]
          rw [hst, hsrv]
          exact ⟨rfl, fun j => rfl⟩
  have hcycle_len : (healthCheckCycle lb probe).servers.length =
      lb.servers.length := probeServers_length probe 0 lb.servers
  have hcycle_url : ∀ j,
      ((healthCheckCycle lb probe).servers.getD j default).url =
        (lb.servers.getD j default).url := by
    intro j
    by_cases hj : j < lb.servers.length
    · rw [show (healthCheckCycle lb probe).servers =
          probeServers probe 0 lb.servers from rfl,
        probeServers_getD probe 0 lb.servers j hj]
      rfl
    · have h1 : lb.servers.length ≤ j := by omega
      have h2 : (probeServers probe 0 lb.servers).length ≤ j := by
        rw [probeServers_length]
        exact h1
      rw [show (healthCheckCycle lb probe).servers =
          probeServers probe 0 lb.servers from rfl]
      rw [List.getD_eq_getElem?_getD, List.getD_eq_getElem?_getD,
        List.getElem?_eq_none h2, List.getElem?_eq_none h1]
  refine ⟨hserve, ⟨hcycle_len, hcycle_url⟩, fun hok => ?_⟩
  rcases GetNextServer_ok_inv hok with ⟨_, rfl⟩
  rfl

/-- Concrete run of claim C8 on a mixed registry. -/
theorem registry_shape_immutable_witness :
    (ServeHTTP lbMixed "/api/users" relayOk 0).2.servers.length =
        lbMixed.servers.length ∧
      ((healthCheckCycle lbMixed prW).servers.getD 1 default).url =
        (lbMixed.servers.getD 1 default).url ∧
      ({ lbMixed with current := 1 } : LoadBalancer).servers =
        lbMixed.servers := by
  have h := registry_shape_immutable lbMixed "/api/users" relayOk 0 prW 2
    { lbMixed with current := 1 }
  exact ⟨h.1.1, h.2.1.2 1, h.2.2 (by decide)⟩

/-- A duplicate-free list whose members all equal one of its elements is a
singleton. -/
theorem length_eq_one_of_mem_unique {α : Type _} (l : List α) (a : α)
    (hn : l.Nodup) (ha : a ∈ l) (huniq : ∀ x ∈ l, x = a) : l.length = 1 := by
  cases l with
  | nil => simp at ha
  | cons x xs =>
    cases xs with
    | nil => rfl
    | cons y ys =>
      exfalso
      rw [List.nodup_cons] at hn
      apply hn.1
      rw [huniq x (by simp), ← huniq y (by simp)]
      exact List.mem_cons_self y ys

/-- Among the offsets 0..k-1 there is one whose rotation lands on
residue j. -/
theorem exists_rotation_hit (c j k : Nat) (hk : 0 < k) (hj : j < k) :
    ∃ t, t < k ∧ (c + t) % k = j := by
  refine ⟨(j + (k - c % k)) % k, Nat.mod_lt _ hk, ?_⟩
  have ha : c % k < k := Nat.mod_lt _ hk
  have hc := Nat.div_add_mod c k
  have hX : c + (j + (k - c % k)) = k * (c / k) + (j + k) := by omega
  rw [Nat.add_mod_mod, hX, Nat.mul_add_mod, Nat.add_mod_right,
    Nat.mod_eq_of_lt hj]

/-- Two offsets below k whose rotations land on the same residue are
equal. -/
theorem rotation_hit_unique {c j k t₁ t₂ : Nat} (h₁ : t₁ < k) (h₂ : t₂ < k)
    (e₁ : (c + t₁) % k = j) (e₂ : (c + t₂) % k = j) : t₁ = t₂ := by
  have key : ∀ u v : Nat, u ≤ v → v < k → (c + u) % k = (c + v) % k → u = v := by
    intro u v huv hv hm
    have hmod : c + u ≡ c + v [MOD k] :=
      show (c + u) % k = (c + v) % k from hm
    have hdvd : k ∣ (c + v) - (c + u) := (Nat.modEq_iff_dvd' (by omega)).mp hmod
    have hsub : (c + v) - (c + u) = v - u := by omega
    rw [hsub] at hdvd
    have := Nat.eq_zero_of_dvd_of_lt hdvd
    omega
  rcases le_total t₁ t₂ with h | h
  · exact key t₁ t₂ h h₂ (by rw [e₁, e₂])
  · exact (key t₂ t₁ h h₁ (by rw [e₁, e₂])).symm

/-- In any window of k consecutive offsets the rotation hits residue j
exactly once. -/
theorem countP_range_rotation_hit (c j k : Nat) (hk : 0 < k) (hj : j < k) :
    (List.range k).countP (fun t => (c + t) % k == j) = 1 := by
  rw [List.countP_eq_length_filter]
  obtain ⟨t0, ht0k, ht0⟩ := exists_rotation_hit c j k hk hj
  refine length_eq_one_of_mem_unique _ t0
    ((List.nodup_range k).filter _) ?_ ?_
  · rw [List.mem_filter, List.mem_range]
    exact ⟨ht0k, by simp [ht0]⟩
  · intro x hx
    rw [List.mem_filter, List.mem_range] at hx
    exact rotation_hit_unique hx.1 ht0k (by simpa using hx.2) ht0

/-- Over q full cycles of k offsets the rotation hits residue j exactly q
times. -/
theorem countP_range_rotation_mul (c j k : Nat) (hk : 0 < k) (hj : j < k) :
    ∀ q, (List.range (k * q)).countP (fun t => (c + t) % k == j) = q := by
  intro q
  induction q with
  | zero => simp
  | succ n ih =>
    have hqk : k * (n + 1) = k * n + k := by ring
    have hcomp : ((fun t => (c + t) % k == j) ∘ fun x => k * n + x) =
        (fun t => (c + (k * n) + t) % k == j) := by
      funext x
      simp only [Function.comp_apply]
      have hx : c + (k * n + x) = c + k * n + x := by omega
      rw [hx]
    rw [hqk, List.range_add, List.countP_append, ih, List.countP_map, hcomp,
      countP_range_rotation_hit (c + k * n) j k hk hj]

/-- Counting over a longer range of offsets only grows. -/
theorem countP_range_mono (p : Nat → Bool) {a b : Nat} (h : a ≤ b) :
    (List.range a).countP p ≤ (List.range b).countP p := by
  have hb : b = a + (b - a) := by omega
  rw [hb, List.range_add, List.countP_append]
  omega

/-- Over any N consecutive offsets the rotation hits each residue j < k
either floor(N/k) or ceil(N/k) times. -/
theorem countP_range_rotation_floor_ceil (c j k N : Nat) (hk : 0 < k)
    (hj : j < k) :
    (List.range N).countP (fun t => (c + t) % k == j) = N / k ∨
      (List.range N).countP (fun t => (c + t) % k == j) = (N + k - 1) / k := by
  have hq := Nat.div_add_mod N k
  have hr : N % k < k := Nat.mod_lt _ hk
  have h1 := countP_range_rotation_mul c j k hk hj (N / k)
  have h2 := countP_range_rotation_mul c j k hk hj (N / k + 1)
  have hexp : k * (N / k + 1) = k * (N / k) + k := by ring
  by_cases h0 : N % k = 0
  · left
    have hNk : N = k * (N / k) := by omega
    rw [← hNk] at h1
    exact h1
  · have hmono1 : (List.range (k * (N / k))).countP
        (fun t => (c + t) % k == j) ≤
        (List.range N).countP (fun t => (c + t) % k == j) :=
      countP_range_mono _ (by omega)
    have hmono2 : (List.range N).countP (fun t => (c + t) % k == j) ≤
        (List.range (k * (N / k + 1))).countP
          (fun t => (c + t) % k == j) :=
      countP_range_mono _ (by omega)
    have hband : (List.range N).countP (fun t => (c + t) % k == j) = N / k ∨
        (List.range N).countP (fun t => (c + t) % k == j) = N / k + 1 := by
      omega
    have hceil : (N + k - 1) / k = N / k + 1 := by
      have hsplit : N + k - 1 = k * (N / k + 1) + (N % k - 1) := by omega
      rw [hsplit, Nat.mul_add_div hk,
        Nat.div_eq_of_lt (show N % k - 1 < k from by omega)]
    rcases hband with h | h
    · exact Or.inl h
    · right
      rw [hceil]
      exact h

/-- Unfolding one successful selection step of selectN. -/
theorem selectN_succ (lb : LoadBalancer) (n : Nat) (i : Nat)
    (lb' : LoadBalancer) (hok : GetNextServer lb = Except.ok (i, lb')) :
    selectN lb (n + 1) = (i :: (selectN lb' n).1, (selectN lb' n).2) := by
  simp [selectN, hok]

/-- With every server healthy and no counter wrap, N consecutive calls
select the indices (c + 1 + t) mod k for t = 0..N-1 in order and advance
the counter by N. -/
theorem selectN_all_healthy (N : Nat) : ∀ lb : LoadBalancer,
    (∀ s ∈ lb.servers, s.IsHealthy = true) → 0 < lb.servers.length →
    lb.current + N < U64 →
    selectN lb N =
      ((List.range N).map (fun t => (lb.current + 1 + t) % lb.servers.length),
        { lb with current := lb.current + N }) := by
  induction N with
  | zero =>
    intro lb _ _ _
    simp [selectN]
  | succ n ih =>
    intro lb hall hk hwrap
    have hne : healthyIndices lb.servers ≠ [] := by
      rw [healthyIndices_of_all_healthy hall, Ne, List.range_eq_nil]
      omega
    have hok := GetNextServer_ok hne
    have hcw : (lb.current + 1) % U64 = lb.current + 1 :=
      Nat.mod_eq_of_lt (by omega)
    rw [healthyIndices_of_all_healthy hall, hcw] at hok
    have hmodlt : (lb.current + 1) % lb.servers.length < lb.servers.length :=
      Nat.mod_lt _ hk
    have hgetD : (List.range lb.servers.length).getD
        ((lb.current + 1) % (List.range lb.servers.length).length) 0 =
        (lb.current + 1) % lb.servers.length := by
      rw [List.length_range,
        List.getD_eq_getElem _ _ (by rw [List.length_range]; exact hmodlt),
        List.getElem_range]
    rw [hgetD] at hok
    have hih := ih { lb with current := lb.current + 1 } hall hk
      (show lb.current + 1 + n < U64 from by omega)
    rw [selectN_succ lb n _ _ hok, hih]
    refine congrArg₂ Prod.mk ?_ ?_
    · rw [List.range_succ_eq_map, List.map_cons, List.map_map]
      refine congrArg₂ List.cons ?_ ?_
      · simp
      · refine List.map_congr_left fun t _ => ?_
        show (lb.current + 1 + 1 + t) % lb.servers.length =
          (lb.current + 1 + (t + 1)) % lb.servers.length
        have harg : lb.current + 1 + 1 + t = lb.current + 1 + (t + 1) := by
          omega
        rw [harg]
    · show ({ lb with current := lb.current + 1 + n } : LoadBalancer) =
        { lb with current := lb.current + (n + 1) }
      have harg : lb.current + 1 + n = lb.current + (n + 1) := by omega
      rw [harg]

/-- Claim C2: with every record healthy and no counter wrap, N consecutive
GetNextServer calls rotate through the registry in order starting from the
counter's offset - the t-th selection is the record at registry position
(c + 1 + t) mod k - and every registry position j is selected exactly
floor(N/k) or ceil(N/k) times. -/
theorem round_robin_fair_rotation (lb : LoadBalancer) (N : Nat) (j : Nat)
    (hall : ∀ s ∈ lb.servers, s.IsHealthy = true)
    (hk : 0 < lb.servers.length)
    (hwrap : lb.current + N < U64)
    (hj : j < lb.servers.length) :
    (∀ t, t < N → (selectN lb N).1.getD t 0 =
      (lb.current + 1 + t) % lb.servers.length) ∧
    ((selectN lb N).1.count j = N / lb.servers.length ∨
      (selectN lb N).1.count j =
        (N + lb.servers.length - 1) / lb.servers.length) := by
  rw [selectN_all_healthy N lb hall hk hwrap]
  constructor
  · intro t ht
    rw [List.getD_eq_getElem _ _ (by simpa using ht), List.getElem_map,
      List.getElem_range]
  · rw [List.count_eq_countP, List.countP_map]
    have hcomp : ((fun x => x == j) ∘
        fun t => (lb.current + 1 + t) % lb.servers.length) =
        (fun t => (lb.current + 1 + t) % lb.servers.length == j) := rfl
    rw [hcomp]
    exact countP_range_rotation_floor_ceil (lb.current + 1) j
      lb.servers.length N hk hj

/-- Concrete run of claim C2: six selections over the three healthy
backends; the sixth lands where the rotation says, and backend 1 is
selected 6/3 = 2 times. -/
theorem round_robin_fair_rotation_witness :
    (selectN NewLoadBalancer 6).1.getD 5 0 =
      (NewLoadBalancer.current + 1 + 5) % NewLoadBalancer.servers.length ∧
    ((selectN NewLoadBalancer 6).1.count 1 =
        6 / NewLoadBalancer.servers.length ∨
      (selectN NewLoadBalancer 6).1.count 1 =
        (6 + NewLoadBalancer.servers.length - 1) /
          NewLoadBalancer.servers.length) := by
  have h := round_robin_fair_rotation NewLoadBalancer 6 1 (by decide)
    (by decide) (by decide) (by decide)
  exact ⟨h.1 5 (by decide), h.2⟩
